import Mathlib

/-!
Shallow embedding of the Shazam-style audio fingerprinting repository
(builddb.py, builddb_threading.py, builddb_cuda.py, identify.py).

Conventions of the embedding:
* machine floats that are only compared, added, subtracted or multiplied are
  modelled as rationals (ℚ);
* the FFT magnitude kernel and the Hann window are external library
  collaborators (scipy.fftpack.fft composed with np.abs, np.hanning); they are
  passed as explicit function parameters, with length preservation assumed
  where a theorem needs it;
* Python `range` loops become explicit index lists, Python dicts become
  functions updated pointwise, the SQLite fingerprints table becomes the list
  (multiset) of its rows.
-/

namespace Shazam

/-- The list `[0, step, 2*step, ...)` of naturals below `stop`, i.e. Python
`range(0, stop, step)` restricted to a nonnegative start.  For `step = 0` the
result is empty (the Python loop would be an error there). -/
def rangeStepLt (stop step : Nat) : List Nat :=
  (List.range ((stop + step - 1) / step)).map (fun k => k * step)

/-- `hop_size = int(frame_size * (1 - overlap_ratio))` from
`builddb.py::get_spectrogram`: Python `int()` truncates toward zero, which on
a rational is the T-division of numerator by denominator. -/
def hopOf (frame_size : Nat) (overlap : ℚ) : Nat :=
  (((frame_size : ℚ) * (1 - overlap)).num.tdiv
    (((frame_size : ℚ) * (1 - overlap)).den : Int)).toNat

/-- `builddb.py::get_spectrogram` (also `identify.py`, identical text): for
each frame start `i` in `range(0, len(audio) - frame_size, hop_size)` take the
frame, multiply by the Hann window, apply the FFT-magnitude kernel and keep the
first `frame_size // 2` entries.  `fftMag` stands for `np.abs ∘ scipy.fftpack.fft`
(taking the magnitude before or after the slice is the same); the result is the
list of frames, i.e. the transpose of the `(F, T)` array the source returns. -/
def get_spectrogram (fftMag : List ℚ → List ℚ) (hann : Nat → List ℚ)
    (audio : List ℚ) (frame_size : Nat) (overlap : ℚ) : List (List ℚ) :=
  (rangeStepLt (audio.length - frame_size) (hopOf frame_size overlap)).map (fun i =>
    (fftMag (List.zipWith (fun a w => a * w)
      ((audio.drop i).take frame_size) (hann frame_size))).take (frame_size / 2))

/-- A constellation peak as produced by `builddb.py::get_peaks`:
`zip(i, j, amps)` where `i` is the column (time frame) and `j` the row
(frequency bin) of the transposed spectrogram. -/
structure Peak where
  t : Nat
  f : Nat
  amp : ℚ
deriving DecidableEq

/-- Lexicographic comparison of the `(t, f, amp)` peak tuples, the order used
by Python `list.sort()` on the triples. -/
def peakLE (a b : Peak) : Prop :=
  a.t < b.t ∨ (a.t = b.t ∧ (a.f < b.f ∨ (a.f = b.f ∧ a.amp ≤ b.amp)))

instance : DecidableRel peakLE := fun a b =>
  inferInstanceAs (Decidable
    (a.t < b.t ∨ (a.t = b.t ∧ (a.f < b.f ∨ (a.f = b.f ∧ a.amp ≤ b.amp)))))

/-- One emitted fingerprint, carrying the fields of the f-string
`f"{freq1}|{freq2}|{time_delta}"` together with the offset `t1` that
`builddb.py::generate_hashes` appends alongside it. -/
structure Emission where
  f1 : Nat
  f2 : Nat
  dt : Int
  offset : Nat
deriving DecidableEq

/-- The hash string `f"{freq1}|{freq2}|{time_delta}"`. -/
def hashString (e : Emission) : String :=
  toString e.f1 ++ "|" ++ toString e.f2 ++ "|" ++ toString e.dt

/-- The common double loop `for i in range(n): for j in range(1, fan_value):`
with the body guarded by `i + j < n` (the guard is realised by the `Option`
returned from out-of-range list indexing in the instantiations below). -/
def pairScan {β : Type} (g : Nat → Nat → Option β) (n fan : Nat) : List β :=
  (List.range n).flatMap (fun i =>
    (List.range' 1 (fan - 1)).filterMap (fun j => g i j))

/-- `builddb.py::generate_hashes`: sort the peaks, then for each anchor `i`
and each `j` in `range(1, fan_value)` with `i + j` in range, emit
`(f"{freq1}|{freq2}|{time_delta}", t1)` provided `0 <= time_delta <= 200`.
Here the emissions keep their fields; `hashString` produces the stored text. -/
def generate_hashes (peaks : List Peak) (fan : Nat) : List Emission :=
  let sorted := List.insertionSort peakLE peaks
  pairScan (fun i j =>
    match sorted[i]?, sorted[i + j]? with
    | some p1, some p2 =>
        let time_delta : Int := (p2.t : Int) - (p1.t : Int)
        if 0 ≤ time_delta ∧ time_delta ≤ 200 then
          some ⟨p1.f, p2.f, time_delta, p1.t⟩
        else none
    | _, _ => none) sorted.length fan

/-- `builddb_cuda.py::generate_hashes`: same double loop, but the peaks are
`(freq, time)` rows from `argwhere`, there is no Δt test and no sort; each pair
emits `((freq1, freq2, time2 - time1), time1)`. -/
def generate_hashes_cuda (peaks : List (Nat × Nat)) (fan : Nat) :
    List ((Nat × Nat × Int) × Nat) :=
  pairScan (fun i j =>
    match peaks[i]?, peaks[i + j]? with
    | some p1, some p2 =>
        some ((p1.1, p2.1, (p2.2 : Int) - (p1.2 : Int)), p1.2)
    | _, _ => none) peaks.length fan

/-- Bounds-checked cell access `G[i][j]` of a grid, `none` outside. -/
def cellI (G : List (List ℚ)) (i j : Int) : Option ℚ :=
  if 0 ≤ i ∧ 0 ≤ j then (G[i.toNat]?).bind (fun row => row[j.toNat]?) else none

/-- The footprint `iterate_structure(generate_binary_structure(2, 1), 20)` of
`builddb.py::get_peaks`: all offsets `(di, dj)` with `|di| + |dj| ≤ 20`. -/
def diamondOffsets : List (Int × Int) :=
  (List.range 41).flatMap (fun a =>
    (List.range 41).filterMap (fun b =>
      let di : Int := (a : Int) - 20
      let dj : Int := (b : Int) - 20
      if di.natAbs + dj.natAbs ≤ 20 then some (di, dj) else none))

/-- `local_max = maximum_filter(S, footprint=neighborhood) == S` at one cell:
the cell value equals the maximum over the in-bounds part of the diamond
neighbourhood (for grids larger than the footprint radius, scipy's default
reflect border mode yields exactly the in-bounds maximum). -/
def localMaxAt (G : List (List ℚ)) (i j : Nat) : Bool :=
  match cellI G i j,
    (diamondOffsets.filterMap
      (fun d => cellI G ((i : Int) + d.1) ((j : Int) + d.2))).max? with
  | some v, some m => decide (v = m)
  | _, _ => false

/-- `binary_erosion(S == 0, structure=neighborhood, border_value=1)` at one
cell: every in-bounds neighbour in the diamond is zero (out-of-bounds cells
count as background because `border_value=1`). -/
def erodedBackgroundAt (G : List (List ℚ)) (i j : Nat) : Bool :=
  diamondOffsets.all (fun d =>
    match cellI G ((i : Int) + d.1) ((j : Int) + d.2) with
    | some v => decide (v = 0)
    | none => true)

/-- `detected_peaks = local_max ^ eroded_background` (elementwise XOR). -/
def detectedAt (G : List (List ℚ)) (i j : Nat) : Bool :=
  xor (localMaxAt G i j) (erodedBackgroundAt G i j)

/-- `builddb.py::get_peaks` on the transposed spectrogram `G` (rows indexed by
frequency `f`, columns by time `t`): `np.where` scans rows then columns, and
`[x for x in peaks if x[2] > amp_min]` keeps the peaks louder than `amp_min`.
Each kept peak is the tuple `(t, f, amp)` from `zip(i, j, amps)`.  This covers
the 2-D arrays the scipy filters accept; on the 1-D empty `np.array([]).T` of
a frameless spectrogram the source raises instead of reaching `np.where`,
which `generate_fingerprint_run` models. -/
def get_peaks (G : List (List ℚ)) (amp_min : ℚ) : List Peak :=
  (List.range G.length).flatMap (fun (f : Nat) =>
    (List.range ((G[f]?.getD []).length)).filterMap (fun (t : Nat) =>
      match cellI G (f : Int) (t : Int) with
      | some amp =>
          if detectedAt G f t = true ∧ amp_min < amp then some ⟨t, f, amp⟩
          else none
      | none => none))

/-- The emissions of `builddb.py::generate_fingerprint`: spectrogram (with its
final transpose, giving the `(F, T)` layout `get_peaks` reads), peaks at
`amp_min = 10`, then hashes at the given fan-out. -/
def emissionsOf (fftMag : List ℚ → List ℚ) (hann : Nat → List ℚ)
    (audio : List ℚ) (frame_size : Nat) (overlap : ℚ) (fan : Nat) :
    List Emission :=
  generate_hashes
    (get_peaks (get_spectrogram fftMag hann audio frame_size overlap).transpose 10)
    fan

/-- `builddb.py::generate_fingerprint` (the same text appears in
`identify.py`): returns the parallel lists `(hashes, offsets)`.  This is the
successful path; `get_peaks` is only reached with a 2-D array (a nonempty
transposed grid), and the failure of the peak stage on the 1-D empty
`np.array([]).T` is modelled by `generate_fingerprint_run` below. -/
def generate_fingerprint (fftMag : List ℚ → List ℚ) (hann : Nat → List ℚ)
    (audio : List ℚ) (frame_size : Nat) (overlap : ℚ) (fan : Nat) :
    List String × List Nat :=
  ((emissionsOf fftMag hann audio frame_size overlap fan).map hashString,
   (emissionsOf fftMag hann audio frame_size overlap fan).map Emission.offset)

/-- The library error raised inside `builddb.py::get_peaks` when
`scipy.ndimage.maximum_filter` (and likewise `binary_erosion`) is given the
41×41 diamond footprint together with a 1-D input array: a `RuntimeError`
about the filter footprint shape, not any typed error of this program. -/
inductive PipelineError where
  | filterShapeMismatch
deriving DecidableEq

/-- A run of `builddb.py::generate_fingerprint` including the failure mode of
its `get_peaks` stage.  `np.array(spectrogram).T` is 2-D whenever the frame
list is nonempty (shape `(T, F)`, transposed `(F, T)`, even for `F = 0`), but
for an **empty** frame list it is the 1-D empty array of shape `(0,)`, on
which `maximum_filter` raises `RuntimeError` because its 2-D diamond
footprint does not match the input rank.  So the run fails exactly when the
spectrogram has no frames, and otherwise returns `generate_fingerprint`. -/
def generate_fingerprint_run (fftMag : List ℚ → List ℚ) (hann : Nat → List ℚ)
    (audio : List ℚ) (frame_size : Nat) (overlap : ℚ) (fan : Nat) :
    Except PipelineError (List String × List Nat) :=
  if get_spectrogram fftMag hann audio frame_size overlap = [] then
    Except.error PipelineError.filterShapeMismatch
  else
    Except.ok (generate_fingerprint fftMag hann audio frame_size overlap fan)

/-- Cell access by natural indices (a grid cell of
`builddb_threading.py::find_peaks`). -/
def cellN (S : List (List ℚ)) (i j : Nat) : Option ℚ :=
  (S[i]?).bind (fun row => row[j]?)

/-- The nine offsets of the `(3, 3)` maximum-filter window. -/
def offsets3 : List (Int × Int) :=
  [(-1, -1), (-1, 0), (-1, 1), (0, -1), (0, 0), (0, 1), (1, -1), (1, 0), (1, 1)]

/-- `maximum_filter(S, size=(3,3))` at one cell: the maximum over the
in-bounds 3×3 window (scipy's reflect border duplicates edge cells, which does
not change a maximum, so this is exact). -/
def nbhd3Max (S : List (List ℚ)) (i j : Nat) : Option ℚ :=
  (offsets3.filterMap
    (fun d => cellI S ((i : Int) + d.1) ((j : Int) + d.2))).max?

/-- `builddb_threading.py::find_peaks` (the cupy version in
`builddb_cuda.py::find_peaks` is textually identical up to the array library):
`maxima = (S == data_max)`, then `maxima[diff] = False` where
`diff = (data_max - S) > threshold`, then `argwhere` in raster order. -/
def find_peaks (S : List (List ℚ)) (threshold : ℚ) : List (Nat × Nat) :=
  (List.range S.length).flatMap (fun i =>
    (List.range ((S[i]?.getD []).length)).filterMap (fun j =>
      match cellN S i j, nbhd3Max S i j with
      | some v, some m =>
          if v = m ∧ ¬ threshold < m - v then some (i, j) else none
      | _, _ => none))

/-- A row `(hash, offset, song_name)` of the `fingerprints` table as returned
by `identify.py::search_song` (`HashMatch` namedtuple).  Stored offsets are
frame indices (REAL in the schema, always integral). -/
structure HashMatch where
  hash : String
  offset : Int
  song : String
deriving DecidableEq

/-- The dict comprehension
`hash_dict = {match.hash: match.offset for match in matches}` of
`identify.py::main`: later matches overwrite earlier ones, so each hash maps
to the offset of the **last** database row bearing it. -/
def hash_dict (ms : List HashMatch) : String → Option Int :=
  ms.foldl (fun d m => fun h => if h = m.hash then some m.offset else d h)
    (fun _ => none)

/-- `relative_offsets = [(match.song_name, match.offset - hash_dict[match.hash])
for match in matches]` from `identify.py::main`.  The lookup never misses for
a hash of a listed match, so the default is irrelevant. -/
def relative_offsets_of (ms : List HashMatch) : List (String × Int) :=
  ms.map (fun m => (m.song, m.offset - (hash_dict ms m.hash).getD 0))

/-- One step of
`candidate_counts.setdefault(song_name, {}).setdefault(offset, 0);
candidate_counts[song_name][offset] += 1`: bump the bin of `p` (the nested
dicts of `identify.py::main` are one counting function on pairs). -/
def bumpCounts (c : String × Int → Nat) (p : String × Int) : String × Int → Nat :=
  fun q => if q = p then c p + 1 else c q

/-- The histogram built by the `candidate_counts` loop of `identify.py::main`
over the whole `relative_offsets` list, as the counting function
`(song_name, offset) ↦ votes`. -/
def candidate_counts (ros : List (String × Int)) : String × Int → Nat :=
  ros.foldl bumpCounts (fun _ => 0)

/-- The selection loop of `identify.py::main` (lines 194–202): walk
`relative_offsets`, bump the bin of the current pair, and take the bin over as
`(best_candidate_name, max_match_count)` only when it **strictly** exceeds the
running maximum.  Initial state: empty counts, `max_match_count = 0`,
`best_candidate_name = ""`. -/
def voteLoop : List (String × Int) → (String × Int → Nat) → Nat → String →
    String × Nat
  | [], _, mx, name => (name, mx)
  | p :: rest, counts, mx, name =>
      if mx < counts p + 1 then voteLoop rest (bumpCounts counts p) (counts p + 1) p.1
      else voteLoop rest (bumpCounts counts p) mx name

/-- The matcher's final answer `(best_candidate_name, max_match_count)` as a
function of the `relative_offsets` list. -/
def bestCandidate (ros : List (String × Int)) : String × Nat :=
  voteLoop ros (fun _ => 0) 0 ""

/-- The vote histogram the code produces for a list of database matches:
counts of each `(song_name, offset_difference)` pair among
`relative_offsets`. -/
def codeVotes (ms : List HashMatch) : String × Int → Nat :=
  candidate_counts (relative_offsets_of ms)

/-- Modelled from the spec (§4.6 step 3), for comparison with `codeVotes`:
"For each row, for each query `o_q` such that its hash equals `h`, compute
`Δ = o_db − o_q`. Increment `votes[(track_id, Δ)]`."  The query is the list of
`(hash, offset)` fingerprint pairs of the sample. -/
def specVotes (query : List (String × Int)) (rows : List HashMatch) :
    String × Int → Nat := fun p =>
  ((rows.flatMap (fun r =>
    query.filterMap (fun q =>
      if q.1 = r.hash then some (r.song, r.offset - q.2) else none))).count p)

/-- A row of the `fingerprints` table of `builddb.py`:
`(hash TEXT, offset REAL, song_name TEXT)`. -/
structure Posting where
  hash : String
  offset : ℚ
  song : String
deriving DecidableEq

/-- `builddb.py::insert_elements`: `INSERT INTO fingerprints ... executemany`
appends every value row to the table; there is no key, no uniqueness
constraint and no presence check.  The table is modelled as the list of its
rows (a multiset; SQL row order is immaterial). -/
def insert_elements (db : List Posting) (values : List Posting) : List Posting :=
  db ++ values

/-- Column `c` of a sample-major matrix, i.e. numpy `channels[:, c]`:
defined exactly when the index is valid in every row, as numpy fancy indexing
requires `c < channels.shape[1]` (and errors on a 1-D mono array, which has no
second axis at all — modelled as rows of width 1). -/
def column (rows : List (List ℚ)) (c : Nat) : Option (List ℚ) :=
  if rows.all (fun r => c < r.length) then
    some (rows.map (fun r => r.getD c 0))
  else none

/-- The channel loop shared by `builddb.py::process_song` and
`identify.py::process_audio`: `for channel in range(0, 2):` fingerprint
`channels[:, channel]` with the default parameters
(`frame_size=4096, overlap_ratio=0.5, fan_value=15`) and extend the hash and
offset lists.  The loop is unrolled to its two fixed iterations; a failing
column index aborts the whole operation (the Python `IndexError`). -/
def process_audio_channels (fftMag : List ℚ → List ℚ) (hann : Nat → List ℚ)
    (rows : List (List ℚ)) : Option (List String × List Nat) :=
  match column rows 0, column rows 1 with
  | some c0, some c1 =>
      some ((generate_fingerprint fftMag hann c0 4096 (1/2) 15).1 ++
              (generate_fingerprint fftMag hann c1 4096 (1/2) 15).1,
            (generate_fingerprint fftMag hann c0 4096 (1/2) 15).2 ++
              (generate_fingerprint fftMag hann c1 4096 (1/2) 15).2)
  | _, _ => none

/-! ## Helper lemmas -/

theorem pairScan_length_le {β : Type} (g : Nat → Nat → Option β) (n fan : Nat) :
    (pairScan g n fan).length ≤ fan * n := by
  unfold pairScan
  rw [List.length_flatMap]
  calc (List.map (List.length ∘ fun i => (List.range' 1 (fan - 1)).filterMap (g i))
          (List.range n)).sum
      ≤ (List.map (List.length ∘ fun i =>
          (List.range' 1 (fan - 1)).filterMap (g i)) (List.range n)).length • fan := by
        refine List.sum_le_card_nsmul _ _ ?_
        intro x hx
        simp only [List.mem_map, Function.comp_apply] at hx
        obtain ⟨i, _, rfl⟩ := hx
        calc ((List.range' 1 (fan - 1)).filterMap (g i)).length
            ≤ (List.range' 1 (fan - 1)).length := List.length_filterMap_le _ _
          _ = fan - 1 := List.length_range' _ _ _
          _ ≤ fan := Nat.sub_le _ _
    _ = fan * n := by
        rw [List.length_map, List.length_range, smul_eq_mul, Nat.mul_comm]

theorem mem_rangeStepLt {stop step x : Nat} (hs : 0 < step)
    (hx : x ∈ rangeStepLt stop step) : x < stop := by
  unfold rangeStepLt at hx
  simp only [List.mem_map, List.mem_range] at hx
  obtain ⟨k, hk, rfl⟩ := hx
  have h2 : k + 1 ≤ (stop + step - 1) / step := hk
  rw [Nat.le_div_iff_mul_le hs] at h2
  rw [Nat.add_mul, Nat.one_mul] at h2
  have h3 : k * step + step ≤ stop + step - 1 := h2
  omega

theorem rangeStepLt_zero (step : Nat) : rangeStepLt 0 step = [] := by
  unfold rangeStepLt
  rcases Nat.eq_zero_or_pos step with h | h
  · subst h; rfl
  · rw [Nat.zero_add, Nat.div_eq_of_lt (by omega), List.range_zero, List.map_nil]

theorem hopOf_eq (frame_size n : Nat) (overlap : ℚ)
    (h : (frame_size : ℚ) * (1 - overlap) = (n : ℚ)) :
    hopOf frame_size overlap = n := by
  unfold hopOf
  rw [h]
  simp

/-! ## C1 — matcher vote histogram -/

/-- C1: in the matcher of `identify.py::main`, the claim says every database
row `(h, track_id, o_db)` is paired with every query offset `o_q` of hash `h`
and the bin `(track_id, o_db − o_q)` is voted.  The code instead subtracts
`hash_dict[match.hash]`, the offset of the **last database row** with that
hash, and never consults the query offsets.  At the failing input — query
fingerprints `[("h", 0)]`, database rows `[("h", 5, "A"), ("h", 7, "A")]` —
the claimed histogram has one vote in bin `("A", 5)` (and one in `("A", 7)`),
while the code's histogram leaves `("A", 5)` empty and instead votes
`("A", −2)` and `("A", 0)`. -/
theorem C1_votes_divergence :
    codeVotes [⟨"h", 5, "A"⟩, ⟨"h", 7, "A"⟩] ("A", 5) = 0 ∧
    specVotes [("h", 0)] [⟨"h", 5, "A"⟩, ⟨"h", 7, "A"⟩] ("A", 5) = 1 ∧
    specVotes [("h", 0)] [⟨"h", 5, "A"⟩, ⟨"h", 7, "A"⟩] ("A", 7) = 1 ∧
    codeVotes [⟨"h", 5, "A"⟩, ⟨"h", 7, "A"⟩] ("A", -2) = 1 ∧
    codeVotes [⟨"h", 5, "A"⟩, ⟨"h", 7, "A"⟩] ("A", 0) = 1 := by
  decide

/-! ## C4 — append is not idempotent -/

/-- C4 counterexample: inserting the postings of one track twice does change
the stored multiset — `insert_elements` has no track-id presence check. -/
theorem C4_counterexample :
    insert_elements (insert_elements [] [⟨"0|1|0", 0, "s"⟩]) [⟨"0|1|0", 0, "s"⟩] ≠
      insert_elements [] [⟨"0|1|0", 0, "s"⟩] := by
  decide

/-- C4 amended: `insert_elements` appends unconditionally, so ingesting the
same postings twice extends the index by a second copy; whenever the file
produced at least one posting the index after the second ingest differs from
the index after the first. -/
theorem C4_amended (db values : List Posting) (h : values ≠ []) :
    insert_elements (insert_elements db values) values = db ++ values ++ values ∧
    insert_elements (insert_elements db values) values ≠ insert_elements db values := by
  refine ⟨rfl, fun hEq => h ?_⟩
  have hlen := congrArg List.length hEq
  simp only [insert_elements, List.length_append] at hlen
  exact List.length_eq_zero.mp (by omega)

/-- C4 witness. -/
theorem C4_amended_witness :
    insert_elements (insert_elements [] [⟨"0|1|0", 0, "s"⟩]) [⟨"0|1|0", 0, "s"⟩] =
        [] ++ [⟨"0|1|0", 0, "s"⟩] ++ [⟨"0|1|0", 0, "s"⟩] ∧
    insert_elements (insert_elements [] [⟨"0|1|0", 0, "s"⟩]) [⟨"0|1|0", 0, "s"⟩] ≠
        insert_elements [] [⟨"0|1|0", 0, "s"⟩] :=
  C4_amended [] [⟨"0|1|0", 0, "s"⟩] (by decide)

/-! ## C9 — determinism of fingerprint extraction -/

/-- C9: fingerprint extraction is a pure function of the PCM input, the
spectral kernel and the parameters: runs on identical inputs with identical
parameters produce identical hash and offset lists.  The embedding of
`generate_fingerprint` reads no state besides its arguments, so equal inputs
give equal outputs. -/
theorem C9_deterministic (fftMag : List ℚ → List ℚ) (hann : Nat → List ℚ)
    (a1 a2 : List ℚ) (frame_size : Nat) (overlap : ℚ) (fan : Nat)
    (h : a1 = a2) :
    generate_fingerprint fftMag hann a1 frame_size overlap fan =
      generate_fingerprint fftMag hann a2 frame_size overlap fan := by
  rw [h]

/-- C9 witness. -/
theorem C9_deterministic_witness :
    generate_fingerprint id (fun n => List.replicate n 1) [0] 4 (1/2) 15 =
      generate_fingerprint id (fun n => List.replicate n 1) [0] 4 (1/2) 15 :=
  C9_deterministic id (fun n => List.replicate n 1) [0] [0] 4 (1/2) 15 rfl

/-! ## C2 — Δt range of emitted postings -/

/-- C2 counterexample: the guard in `builddb.py::generate_hashes` is
`0 <= time_delta <= 200`, so two peaks in the same frame produce a posting
with `Δt = 0`, below the claimed lower bound `Δt_min = 1`. -/
theorem C2_counterexample :
    generate_hashes [⟨0, 0, 11⟩, ⟨0, 1, 11⟩] 15 = [⟨0, 1, 0, 0⟩] ∧
    ¬ (1 : Int) ≤ (0 : Int) := by
  decide

/-- C2 amended: every posting emitted by `generate_hashes` satisfies
`0 ≤ Δt ≤ 200` (lower bound 0, not the claimed 1) and `offset ≥ 0`. -/
theorem C2_amended (peaks : List Peak) (fan : Nat) (e : Emission)
    (he : e ∈ generate_hashes peaks fan) :
    0 ≤ e.dt ∧ e.dt ≤ 200 ∧ 0 ≤ (e.offset : Int) := by
  unfold generate_hashes pairScan at he
  simp only [List.mem_flatMap, List.mem_filterMap] at he
  obtain ⟨i, _, j, _, hg⟩ := he
  split at hg
  case _ p1 p2 _ _ =>
    split at hg
    case isTrue hcond =>
      cases hg
      exact ⟨hcond.1, hcond.2, Int.ofNat_nonneg _⟩
    case isFalse => exact absurd hg (by simp)
  case _ => exact absurd hg (by simp)

/-- C2 witness. -/
theorem C2_amended_witness :
    0 ≤ (⟨0, 1, 0, 0⟩ : Emission).dt ∧ (⟨0, 1, 0, 0⟩ : Emission).dt ≤ 200 ∧
      0 ≤ ((⟨0, 1, 0, 0⟩ : Emission).offset : Int) :=
  C2_amended [⟨0, 0, 11⟩, ⟨0, 1, 11⟩] 15 ⟨0, 1, 0, 0⟩ (by decide)

/-! ## C3 — behaviour on input shorter than the FFT window -/

/-- C3 counterexample: on a 1-sample input with `frame_size = 4096` the
frontend returns the empty spectrogram as an ordinary value — there is no
`ShortInput` (or any other) error path in `builddb.py::get_spectrogram`. -/
theorem C3_counterexample :
    get_spectrogram id (fun n => List.replicate n 1) [0] 4096 (1/2) = [] ∧
    ([(0 : ℚ)] : List ℚ).length < 4096 := by
  constructor
  · unfold get_spectrogram
    have h1 : ([(0 : ℚ)] : List ℚ).length - 4096 = 0 := rfl
    rw [h1, rangeStepLt_zero, List.map_nil]
  · decide

/-- C3 amended: for PCM input shorter than `frame_size` the frontend does
**not** raise `ShortInput` — it silently returns an empty spectrogram (zero
frames) and continues; the pipeline then fails in the peak-extraction stage
with a generic library error (scipy's `maximum_filter` rejects the 2-D
diamond footprint on the now-1-D empty array), so no postings are produced
from such a file, but by a downstream crash rather than a typed frontend
error. -/
theorem C3_amended (fftMag : List ℚ → List ℚ) (hann : Nat → List ℚ)
    (audio : List ℚ) (frame_size : Nat) (overlap : ℚ) (fan : Nat)
    (h : audio.length < frame_size) :
    get_spectrogram fftMag hann audio frame_size overlap = [] ∧
    generate_fingerprint_run fftMag hann audio frame_size overlap fan =
      Except.error PipelineError.filterShapeMismatch := by
  have hspec : get_spectrogram fftMag hann audio frame_size overlap = [] := by
    unfold get_spectrogram
    rw [Nat.sub_eq_zero_of_le (Nat.le_of_lt h), rangeStepLt_zero, List.map_nil]
  refine ⟨hspec, ?_⟩
  unfold generate_fingerprint_run
  rw [if_pos hspec]

/-- C3 witness. -/
theorem C3_amended_witness :
    get_spectrogram id (fun n => List.replicate n 1) [0] 4096 (1/2) = [] ∧
    generate_fingerprint_run id (fun n => List.replicate n 1) [0] 4096 (1/2) 15 =
      Except.error PipelineError.filterShapeMismatch :=
  C3_amended id (fun n => List.replicate n 1) [0] 4096 (1/2) 15 (by decide)

/-! ## C5 — spectrogram shape -/

/-- C5 counterexample: at `N = frame_size = 4096`, `hop = 2048` the code
produces 0 frames where the claim's formula `⌊(N − n_fft)/hop⌋ + 1` predicts
1; and on an input long enough to produce frames (`N = 8, frame_size = 4,
hop = 2`) every frame has `frame_size / 2 = 2` bins, not the claimed
`frame_size / 2 + 1 = 3`. -/
theorem C5_counterexample :
    (get_spectrogram id (fun n => List.replicate n 1)
        (List.replicate 4096 0) 4096 (1/2)).length = 0 ∧
    (List.replicate 4096 (0 : ℚ)).length = 4096 ∧
    (4096 - 4096) / hopOf 4096 (1/2) + 1 = 1 ∧
    (get_spectrogram id (fun n => List.replicate n 1)
        (List.replicate 8 0) 4 (1/2)).map List.length = [2, 2] ∧
    4 / 2 + 1 = 3 := by
  have hhop : hopOf 4096 (1/2) = 2048 := hopOf_eq 4096 2048 (1/2) (by norm_num)
  have hhop4 : hopOf 4 (1/2) = 2 := hopOf_eq 4 2 (1/2) (by norm_num)
  refine ⟨?_, by rw [List.length_replicate], by rw [hhop], ?_, by decide⟩
  · unfold get_spectrogram
    rw [List.length_replicate, Nat.sub_self, rangeStepLt_zero, List.map_nil,
      List.length_nil]
  · unfold get_spectrogram
    rw [List.length_replicate, hhop4]
    decide

/-- C5 amended: for a length-preserving FFT-magnitude kernel and Hann window,
the frame list has `T = ⌈(N − frame_size)/hop⌉` entries — zero at
`N = frame_size`, not the claimed `⌊(N − n_fft)/hop⌋ + 1` — and every frame
has exactly `frame_size / 2` frequency bins, not `n_fft/2 + 1` (the code keeps
`fft(...)[:frame_size // 2]`). -/
theorem C5_amended (fftMag : List ℚ → List ℚ) (hann : Nat → List ℚ)
    (audio : List ℚ) (frame_size : Nat) (overlap : ℚ)
    (hfft : ∀ v, (fftMag v).length = v.length)
    (hwin : ∀ n, (hann n).length = n)
    (hhop : 0 < hopOf frame_size overlap) :
    (get_spectrogram fftMag hann audio frame_size overlap).length =
      (audio.length - frame_size + hopOf frame_size overlap - 1) /
        hopOf frame_size overlap ∧
    ∀ fr ∈ get_spectrogram fftMag hann audio frame_size overlap,
      fr.length = frame_size / 2 := by
  constructor
  · unfold get_spectrogram rangeStepLt
    rw [List.length_map, List.length_map, List.length_range]
  · intro fr hfr
    unfold get_spectrogram at hfr
    simp only [List.mem_map] at hfr
    obtain ⟨i, hi, rfl⟩ := hfr
    have hilt : i < audio.length - frame_size := mem_rangeStepLt hhop hi
    have hfs : frame_size ≤ audio.length - i := by omega
    rw [List.length_take, hfft, List.length_zipWith, hwin, List.length_take,
      List.length_drop]
    rw [min_eq_left hfs, min_self, min_eq_left (Nat.div_le_self _ _)]

/-- C5 witness: 10 samples, `frame_size = 4`, `hop = 2` give
`⌈(10 − 4)/2⌉ = 3` frames of 2 bins each. -/
theorem C5_amended_witness :
    (get_spectrogram id (fun n => List.replicate n 1)
        (List.replicate 10 1) 4 (1/2)).length =
      ((List.replicate 10 (1 : ℚ)).length - 4 + hopOf 4 (1/2) - 1) / hopOf 4 (1/2) ∧
    ∀ fr ∈ get_spectrogram id (fun n => List.replicate n 1)
        (List.replicate 10 1) 4 (1/2), fr.length = 4 / 2 :=
  C5_amended id (fun n => List.replicate n 1) (List.replicate 10 1) 4 (1/2)
    (fun _ => rfl) (fun n => List.length_replicate n 1)
    (by rw [hopOf_eq 4 2 (1/2) (by norm_num)]; decide)

/-! ## C6 — emission count bound -/

/-- C6: the hasher emits at most `fan · |peaks|` pairs — the inner loop of
`builddb.py::generate_hashes` runs `range(1, fan_value)`, so each anchor emits
at most `fan − 1 ≤ fan` pairs; the same holds for
`builddb_cuda.py::generate_hashes`. -/
theorem C6_emission_bound (peaks : List Peak) (qs : List (Nat × Nat)) (fan : Nat) :
    (generate_hashes peaks fan).length ≤ fan * peaks.length ∧
    (generate_hashes_cuda qs fan).length ≤ fan * qs.length := by
  constructor
  · calc (generate_hashes peaks fan).length
        ≤ fan * (List.insertionSort peakLE peaks).length :=
          pairScan_length_le _ _ _
      _ = fan * peaks.length := by rw [List.length_insertionSort]
  · exact pairScan_length_le _ _ _

/-! ## C7 — tied neighbours in the peak extractor -/

theorem find_peaks_mem (S : List (List ℚ)) (τ : ℚ) (hτ : 0 ≤ τ) (i j : Nat) :
    (i, j) ∈ find_peaks S τ ↔
      ∃ v, cellN S i j = some v ∧ nbhd3Max S i j = some v := by
  unfold find_peaks
  simp only [List.mem_flatMap, List.mem_range, List.mem_filterMap]
  constructor
  · rintro ⟨a, ha, b, hb, hab⟩
    split at hab
    case _ v m hcell hmax =>
      split at hab
      case isTrue hcond =>
        have hab2 : (a, b) = (i, j) := by injection hab
        obtain ⟨rfl, rfl⟩ : a = i ∧ b = j := Prod.mk.injEq .. ▸ hab2
        refine ⟨v, hcell, ?_⟩
        rw [hmax, hcond.1]
      case isFalse => cases hab
    case _ => cases hab
  · rintro ⟨v, hcell, hmax⟩
    have hbind := hcell
    unfold cellN at hbind
    rw [Option.bind_eq_some] at hbind
    obtain ⟨row, hrow, hv⟩ := hbind
    have hi : i < S.length := (List.getElem?_eq_some.mp hrow).1
    have hj : j < (S[i]?.getD []).length := by
      rw [hrow]
      exact (List.getElem?_eq_some.mp hv).1
    refine ⟨i, hi, j, hj, ?_⟩
    rw [hcell, hmax]
    show (if v = v ∧ ¬ τ < v - v then some (i, j) else none) = some (i, j)
    rw [if_pos ⟨rfl, by rw [sub_self]; exact not_lt.mpr hτ⟩]

/-- C7 counterexample: on the constant grid `[[5, 5]]` the two cells tie at
the 3×3 neighbourhood maximum, yet the later cell `(0, 1)` — which the claim
says must not be reported — is in the output of `find_peaks`. -/
theorem C7_counterexample :
    (0, 1) ∈ find_peaks [[(5 : ℚ), 5]] 20 ∧
    cellN [[(5 : ℚ), 5]] 0 0 = some 5 ∧ cellN [[(5 : ℚ), 5]] 0 1 = some 5 := by
  refine ⟨?_, by decide, by decide⟩
  rw [find_peaks_mem _ _ (by norm_num) 0 1]
  exact ⟨5, by decide, by decide⟩

/-- C7 amended: for any nonnegative threshold, `find_peaks` reports exactly
the cells whose value equals their 3×3 neighbourhood maximum — every tied
cell included, in raster order; the `maxima[diff] = False` masking never
removes a cell (where `S == data_max` holds the difference is `0 ≤ τ`). -/
theorem C7_amended (S : List (List ℚ)) (τ : ℚ) (hτ : 0 ≤ τ) (i j : Nat) :
    (i, j) ∈ find_peaks S τ ↔
      ∃ v, cellN S i j = some v ∧ nbhd3Max S i j = some v :=
  find_peaks_mem S τ hτ i j

/-- C7 witness: on the tied grid the characterisation applies at the second
tied cell. -/
theorem C7_amended_witness :
    (0, 1) ∈ find_peaks [[(5 : ℚ), 5]] 20 ↔
      ∃ v, cellN [[(5 : ℚ), 5]] 0 1 = some v ∧ nbhd3Max [[(5 : ℚ), 5]] 0 1 = some v :=
  C7_amended [[(5 : ℚ), 5]] 20 (by norm_num) 0 1

/-! ## C10 — fixed two-channel loop -/

/-- C10: both ingest and query fingerprint exactly channels 0 and 1.  On a
nonempty mono input (every decoded row has a single channel) the operation
fails at the channel-indexing step and produces nothing; and the output
depends only on columns 0 and 1, so any further channels are ignored. -/
theorem C10_channel_handling (fftMag : List ℚ → List ℚ) (hann : Nat → List ℚ)
    (mono rowsA rowsB : List (List ℚ))
    (hm1 : mono ≠ []) (hm2 : ∀ r ∈ mono, r.length = 1)
    (h0 : column rowsA 0 = column rowsB 0) (h1 : column rowsA 1 = column rowsB 1) :
    process_audio_channels fftMag hann mono = none ∧
    process_audio_channels fftMag hann rowsA = process_audio_channels fftMag hann rowsB := by
  constructor
  · obtain ⟨r, hr⟩ := List.exists_mem_of_ne_nil mono hm1
    have hno : ¬ ((mono.all fun r => decide (1 < r.length)) = true) := by
      intro hall
      rw [List.all_eq_true] at hall
      have h2 := hall r hr
      rw [decide_eq_true_eq, hm2 r hr] at h2
      exact absurd h2 (by omega)
    have hc : column mono 1 = none := by
      unfold column
      rw [if_neg hno]
    unfold process_audio_channels
    rw [hc]
    cases hx : column mono 0 <;> rfl
  · unfold process_audio_channels
    rw [h0, h1]

/-- C10 witness: a mono file fails; a 3-channel and a 2-channel input that
agree on their first two channels fingerprint identically. -/
theorem C10_channel_handling_witness :
    process_audio_channels id (fun n => List.replicate n 1) [[5]] = none ∧
    process_audio_channels id (fun n => List.replicate n 1) [[1, 2, 9], [3, 4, 8]] =
      process_audio_channels id (fun n => List.replicate n 1) [[1, 2], [3, 4]] :=
  C10_channel_handling id (fun n => List.replicate n 1)
    [[5]] [[1, 2, 9], [3, 4, 8]] [[1, 2], [3, 4]]
    (by decide) (by decide) (by decide) (by decide)

/-! ## C8 — what the selection loop returns -/

/-- C8 counterexample: on `relative_offsets = [("b", 0), ("a", 0)]` the bins
`("a", 0)` and `("b", 0)` tie at one vote each, yet the matcher returns
`"b"` — the first bin to reach the maximum in iteration order — although
`"a"` is lexicographically smaller. -/
theorem C8_counterexample :
    bestCandidate [("b", 0), ("a", 0)] = ("b", 1) ∧
    candidate_counts [("b", 0), ("a", 0)] ("a", 0) = 1 ∧
    candidate_counts [("b", 0), ("a", 0)] ("b", 0) = 1 ∧
    "a" < "b" := by
  refine ⟨by decide, by decide, by decide, ?_⟩
  rw [String.lt_iff_toList_lt]
  exact List.Lex.rel (by decide)

theorem voteLoop_spec (l : List (String × Int)) :
    ∀ (counts : String × Int → Nat) (mx : Nat) (name : String),
      (∀ p, counts p ≤ mx) →
      (mx = 0 ∨ ∃ p, counts p = mx) →
      (0 < mx → ∃ o, counts (name, o) = mx) →
      (∀ p, (l.foldl bumpCounts counts) p ≤ (voteLoop l counts mx name).2) ∧
      ((voteLoop l counts mx name).2 = 0 ∨
        ∃ p, (l.foldl bumpCounts counts) p = (voteLoop l counts mx name).2) ∧
      (0 < (voteLoop l counts mx name).2 →
        ∃ o, (l.foldl bumpCounts counts) ((voteLoop l counts mx name).1, o) =
          (voteLoop l counts mx name).2) := by
  induction l with
  | nil =>
      intro counts mx name h1 h2 h3
      exact ⟨h1, h2, h3⟩
  | cons p rest ih =>
      intro counts mx name h1 h2 h3
      rw [List.foldl_cons]
      by_cases hlt : mx < counts p + 1
      · rw [voteLoop, if_pos hlt]
        apply ih
        · intro q
          unfold bumpCounts
          by_cases hq : q = p
          · rw [if_pos hq]
          · rw [if_neg hq]
            exact Nat.le_of_lt (Nat.lt_of_le_of_lt (h1 q) hlt)
        · exact Or.inr ⟨p, by unfold bumpCounts; rw [if_pos rfl]⟩
        · intro _
          exact ⟨p.2, by unfold bumpCounts; rw [if_pos Prod.mk.eta]⟩
      · rw [voteLoop, if_neg hlt]
        have hle : counts p + 1 ≤ mx := Nat.not_lt.mp hlt
        apply ih
        · intro q
          unfold bumpCounts
          by_cases hq : q = p
          · rw [if_pos hq]
            exact hle
          · rw [if_neg hq]
            exact h1 q
        · rcases h2 with h0 | ⟨q0, hq0⟩
          · exact absurd (h0 ▸ hle) (by omega)
          · refine Or.inr ⟨q0, ?_⟩
            have hne : q0 ≠ p := by
              intro he
              rw [he] at hq0
              omega
            unfold bumpCounts
            rw [if_neg hne]
            exact hq0
        · intro hpos
          obtain ⟨o, ho⟩ := h3 hpos
          refine ⟨o, ?_⟩
          have hne : (name, o) ≠ p := by
            intro he
            rw [he] at ho
            omega
          unfold bumpCounts
          rw [if_neg hne]
          exact ho

/-- C8 amended: the matcher returns `(best_candidate_name, max_match_count)`
where the count is the **maximum** bin of the `candidate_counts` histogram,
and (when any vote was cast) the returned name owns a bin attaining that
maximum — namely the first bin to reach it in iteration order; no `Δ*` is
returned and ties are **not** broken lexicographically. -/
theorem C8_amended (ros : List (String × Int)) :
    (∀ p, candidate_counts ros p ≤ (bestCandidate ros).2) ∧
    ((bestCandidate ros).2 = 0 ∨
      ∃ p, candidate_counts ros p = (bestCandidate ros).2) ∧
    (0 < (bestCandidate ros).2 →
      ∃ o, candidate_counts ros ((bestCandidate ros).1, o) = (bestCandidate ros).2) :=
  voteLoop_spec ros (fun _ => 0) 0 "" (fun _ => Nat.le_refl 0) (Or.inl rfl)
    (fun h => absurd h (by omega))

/-- C8 witness. -/
theorem C8_amended_witness :
    candidate_counts [(("a" : String), (0 : Int))] ("a", 0) ≤
      (bestCandidate [(("a" : String), (0 : Int))]).2 :=
  (C8_amended [(("a" : String), (0 : Int))]).1 ("a", 0)

end Shazam
